import Mathlib

set_option maxHeartbeats 1000000
set_option maxRecDepth 16000

/-!
Shallow embedding of `src/RandomX1.h` (class `RandomX1`).

The generator wraps the Arduino native random source.  Its mutable state is
`uint32_t m_bits[2]`, `uint8_t m_bitCounts[2]`, `uint8_t m_ctrlIndex`.
We model the state as a record of natural numbers (bit patterns).  The
native source is external: every value it would return is passed in as an
explicit argument, and theorems hypothesise the documented range
(`::random(LONG_MAX)` returns a value in `[0, LONG_MAX)` with
`LONG_MAX = 2^31 - 1` on the 32-bit `long` of the target).

C++ `long` is 32-bit and signed; signed overflow is undefined behaviour, so
`long` values are modelled as unbounded `Int`, with the `uint32_t <-> long`
conversions made explicit (`toLong`, `uint32OfLong`).  `uint8_t` arithmetic
is modular (`% 2^8`), and `uint32_t` stores are reduced `% 2^32`.

Each operation additionally reports
  * `ncalls`  - how many times the native source was invoked, and
  * `readsOk` - whether every masked extraction from a buffer used a width
    not exceeding the bits currently available in that buffer
(instrumentation only: the `val`/`st` components are exactly the source
computation).
-/

/-- Generator state: `m_bits[0]`, `m_bits[1]`, `m_bitCounts[0]`,
`m_bitCounts[1]`, `m_ctrlIndex` (RandomX1.h lines 313-316). -/
structure RState where
  bits0 : Nat
  bits1 : Nat
  cnt0 : Nat
  cnt1 : Nat
  idx : Nat
  deriving DecidableEq

/-- `m_bits[m_ctrlIndex]`. -/
def RState.bitsAt (s : RState) : Nat :=
  if s.idx = 0 then s.bits0 else s.bits1

/-- `m_bitCounts[m_ctrlIndex]`. -/
def RState.cntAt (s : RState) : Nat :=
  if s.idx = 0 then s.cnt0 else s.cnt1

/-- Store `b` into `m_bits[m_ctrlIndex]` and `c` into `m_bitCounts[m_ctrlIndex]`. -/
def RState.setAt (s : RState) (b c : Nat) : RState :=
  if s.idx = 0 then ⟨b, s.bits1, c, s.cnt1, s.idx⟩ else ⟨s.bits0, b, s.cnt0, c, s.idx⟩

/-- `m_ctrlIndex ^= 0x01` (RandomX1.h lines 106, 156). -/
def RState.toggle (s : RState) : RState :=
  ⟨s.bits0, s.bits1, s.cnt0, s.cnt1, s.idx ^^^ 1⟩

/-- `BITS_PER_NATIVE_RANDOM = 31` (RandomX1.h line 323). -/
def BITS_PER_NATIVE_RANDOM : Nat := 31

/-- `MAX_BITS_PER_RANDOM_REQUEST = 20` (RandomX1.h line 319). -/
def MAX_BITS_PER_RANDOM_REQUEST : Nat := 20

/-- `static const uint8_t MAX_VALUE_PER_RANDOM_REQUEST = ((1 << MAX_BITS_PER_RANDOM_REQUEST) - 1)`
(RandomX1.h line 320).  The declared type is `uint8_t`, so the initializer
`(1 << 20) - 1 = 1048575` is converted modulo `2^8`. -/
def MAX_VALUE_PER_RANDOM_REQUEST : Nat :=
  ((1 <<< MAX_BITS_PER_RANDOM_REQUEST) - 1) % 2 ^ 8

/-- Conversion of a `uint32_t` bit pattern to the C++ `long` it is assigned
to (gcc two's-complement behaviour). -/
def toLong (x : Nat) : Int :=
  if x % 2 ^ 32 < 2 ^ 31 then (x % 2 ^ 32 : Nat) else (x % 2 ^ 32 : Nat) - 2 ^ 32

/-- Conversion of a C++ `long` to `uint32_t` (modulo `2^32`). -/
def uint32OfLong (x : Int) : Nat := (x % 2 ^ 32).toNat

/-- `uint8_t` subtraction, modulo `2^8`. -/
def u8sub (a b : Nat) : Nat := (a + 2 ^ 8 - b % 2 ^ 8) % 2 ^ 8

/-- The `MASKS[32]` table of `_get_mask` (RandomX1.h lines 299-308). -/
def MASKS : List Nat :=
  [0x00000000, 0x00000001, 0x00000003, 0x00000007,
   0x0000000f, 0x0000001f, 0x0000003f, 0x0000007f,
   0x000000ff, 0x000001ff, 0x000003ff, 0x000007ff,
   0x00000fff, 0x00001fff, 0x00003fff, 0x00007fff,
   0x0000ffff, 0x0001ffff, 0x0003ffff, 0x0007ffff,
   0x000fffff, 0x001fffff, 0x003fffff, 0x007fffff,
   0x00ffffff, 0x01ffffff, 0x03ffffff, 0x07ffffff,
   0x0fffffff, 0x1fffffff, 0x3fffffff, 0x7fffffff]

/-- `_get_mask(bit_count)` = `MASKS[bit_count]` (RandomX1.h lines 297-311).
Indexing past the table is undefined behaviour in the source; `getD`
defaults to `0` there (never reached from the public entry points). -/
def get_mask (bit_count : Nat) : Nat := MASKS.getD bit_count 0

/-- The `REQUIRED_BITS[256]` lookup table of `_get_required_bits`
(RandomX1.h lines 187-220). -/
def REQUIRED_BITS : List Nat :=
  [0x00, 0x01, 0x02, 0x02, 0x03, 0x03, 0x03, 0x03,
   0x04, 0x04, 0x04, 0x04, 0x04, 0x04, 0x04, 0x04,
   0x05, 0x05, 0x05, 0x05, 0x05, 0x05, 0x05, 0x05,
   0x05, 0x05, 0x05, 0x05, 0x05, 0x05, 0x05, 0x05,
   0x06, 0x06, 0x06, 0x06, 0x06, 0x06, 0x06, 0x06,
   0x06, 0x06, 0x06, 0x06, 0x06, 0x06, 0x06, 0x06,
   0x06, 0x06, 0x06, 0x06, 0x06, 0x06, 0x06, 0x06,
   0x06, 0x06, 0x06, 0x06, 0x06, 0x06, 0x06, 0x06,
   0x07, 0x07, 0x07, 0x07, 0x07, 0x07, 0x07, 0x07,
   0x07, 0x07, 0x07, 0x07, 0x07, 0x07, 0x07, 0x07,
   0x07, 0x07, 0x07, 0x07, 0x07, 0x07, 0x07, 0x07,
   0x07, 0x07, 0x07, 0x07, 0x07, 0x07, 0x07, 0x07,
   0x07, 0x07, 0x07, 0x07, 0x07, 0x07, 0x07, 0x07,
   0x07, 0x07, 0x07, 0x07, 0x07, 0x07, 0x07, 0x07,
   0x07, 0x07, 0x07, 0x07, 0x07, 0x07, 0x07, 0x07,
   0x07, 0x07, 0x07, 0x07, 0x07, 0x07, 0x07, 0x07,
   0x08, 0x08, 0x08, 0x08, 0x08, 0x08, 0x08, 0x08,
   0x08, 0x08, 0x08, 0x08, 0x08, 0x08, 0x08, 0x08,
   0x08, 0x08, 0x08, 0x08, 0x08, 0x08, 0x08, 0x08,
   0x08, 0x08, 0x08, 0x08, 0x08, 0x08, 0x08, 0x08,
   0x08, 0x08, 0x08, 0x08, 0x08, 0x08, 0x08, 0x08,
   0x08, 0x08, 0x08, 0x08, 0x08, 0x08, 0x08, 0x08,
   0x08, 0x08, 0x08, 0x08, 0x08, 0x08, 0x08, 0x08,
   0x08, 0x08, 0x08, 0x08, 0x08, 0x08, 0x08, 0x08,
   0x08, 0x08, 0x08, 0x08, 0x08, 0x08, 0x08, 0x08,
   0x08, 0x08, 0x08, 0x08, 0x08, 0x08, 0x08, 0x08,
   0x08, 0x08, 0x08, 0x08, 0x08, 0x08, 0x08, 0x08,
   0x08, 0x08, 0x08, 0x08, 0x08, 0x08, 0x08, 0x08,
   0x08, 0x08, 0x08, 0x08, 0x08, 0x08, 0x08, 0x08,
   0x08, 0x08, 0x08, 0x08, 0x08, 0x08, 0x08, 0x08,
   0x08, 0x08, 0x08, 0x08, 0x08, 0x08, 0x08, 0x08,
   0x08, 0x08, 0x08, 0x08, 0x08, 0x08, 0x08, 0x08]

/-- `_get_required_bits(num)` (RandomX1.h lines 184-246): table lookup for
values below 256, otherwise 8-bit right shifts until the value fits.
All call sites pass a non-negative `long`, modelled as `Nat`. -/
def get_required_bits (num : Nat) : Nat :=
  let temp := num >>> 8
  if temp = 0 then REQUIRED_BITS.getD num 0
  else
    let num2 := temp >>> 8
    if num2 = 0 then 8 + REQUIRED_BITS.getD temp 0
    else
      let temp2 := num2 >>> 8
      if temp2 = 0 then 16 + REQUIRED_BITS.getD num2 0
      else 24 + REQUIRED_BITS.getD temp2 0

/-- Result of `_get_bits`: returned `long` (as a `uint32_t` bit pattern,
the value never has bit 31 set on the paths reachable from the public
interface), new state, native-source call count, read-width instrumentation. -/
structure BitsOut where
  val : Nat
  st : RState
  ncalls : Nat
  readsOk : Bool
  deriving DecidableEq

/-- `_get_bits(bit_count)` (RandomX1.h lines 268-290).  `fresh` is the value
`::random(LONG_MAX)` would return if a refill happens.  In the refill branch
the source takes all `m_bitCounts` available bits of the active buffer as the
high part, refills, and completes from the fresh word; `readsOk` records that
the width extracted from the fresh word does not exceed the 31 bits it holds. -/
def get_bits (fresh : Nat) (bit_count : Nat) (s : RState) : BitsOut :=
  if bit_count > s.cntAt then
    -- Refill branch.  The source stores the fresh word into the active
    -- buffer and then the common tail masks and shifts that same buffer;
    -- here the store and the tail's shift are combined into the single
    -- final write `setAt (fw >>> bc) (31 - bc)` of the active buffer.
    let bc := u8sub bit_count s.cntAt
    let hi := (s.bitsAt <<< bc) % 2 ^ 32
    let fw := fresh % 2 ^ 32
    let ret := hi ||| (fw &&& get_mask bc)
    let s2 := s.setAt (fw >>> bc) (u8sub BITS_PER_NATIVE_RANDOM bc)
    ⟨ret, s2, 1, decide (bc ≤ BITS_PER_NATIVE_RANDOM)⟩
  else
    let ret := s.bitsAt &&& get_mask bit_count
    let s2 := s.setAt (s.bitsAt >>> bit_count) (u8sub s.cntAt bit_count)
    ⟨ret, s2, 0, true⟩

/-- Result of a public `long`-returning operation. -/
structure LOut where
  val : Int
  st : RState
  ncalls : Nat
  readsOk : Bool
  deriving DecidableEq

/-- `randomBits(bit_count, offset)` (RandomX1.h lines 95-108).  `bit_count`
is a `uint8_t` (so a value below `2^8`); `fresh` is the native word used on a
refill. -/
def randomBits (fresh : Nat) (bit_count : Nat) (offset : Int) (s : RState) : LOut :=
  if bit_count = 0 then ⟨0, s, 0, true⟩
  else
    let bc := if bit_count > MAX_BITS_PER_RANDOM_REQUEST then MAX_BITS_PER_RANDOM_REQUEST
              else bit_count
    let g := get_bits fresh bc s.toggle
    ⟨toLong g.val + offset, g.st, g.ncalls, g.readsOk⟩

/-- Result of `_peek_bits`: the returned `bool`, the by-reference `res`
(meaningful only when `ok` is true), the new state, and instrumentation. -/
structure PeekOut where
  ok : Bool
  res : Int
  st : RState
  ncalls : Nat
  readsOk : Bool
  deriving DecidableEq

/-- `_peek_bits(bit_count, num, res)` (RandomX1.h lines 251-263).  The
comparison `(m_bits[i] & mask) < num` is between `uint32_t` and `long`, so
`num` is converted to `uint32_t`.  When the peek succeeds `_get_bits` runs
with enough buffered bits, hence never refills (the `0` passed for the fresh
word is unused). -/
def peek_bits (bit_count : Nat) (num : Int) (s : RState) : PeekOut :=
  if s.cntAt ≥ bit_count then
    if s.bitsAt &&& get_mask bit_count < uint32OfLong num then
      let g := get_bits 0 bit_count s
      ⟨true, toLong g.val, g.st, g.ncalls, g.readsOk⟩
    else ⟨false, 0, s, 0, true⟩
  else ⟨false, 0, s, 0, true⟩

/-- The span computation of `random(min_val, max_val)` (RandomX1.h lines
129-138): `diff = max_val - min_val - 1`, clamped to
`MAX_VALUE_PER_RANDOM_REQUEST` when larger. -/
def spanClamped (min_val max_val : Int) : Int :=
  let diff := max_val - min_val - 1
  if diff > (MAX_VALUE_PER_RANDOM_REQUEST : Int) then (MAX_VALUE_PER_RANDOM_REQUEST : Int)
  else diff

/-- `random(min_val, max_val)` (RandomX1.h lines 124-168).  `f1`, `f2` are
the native words used if the two `randomBits` draws refill; `fb` is the value
`::random(diff)` would return on the final fallback. -/
def random2 (f1 f2 fb : Nat) (min_val max_val : Int) (s : RState) : LOut :=
  if max_val - min_val - 1 ≤ 0 then ⟨0, s, 0, true⟩
  else
    let diff := spanClamped min_val max_val
    let req_bits := get_required_bits diff.toNat
    let r1 := randomBits f1 req_bits 0 s
    if r1.val ≥ diff then
      let r2 := randomBits f2 req_bits 0 r1.st
      if r2.val ≥ diff then
        let p1 := peek_bits req_bits diff r2.st
        if p1.ok = false then
          if r2.val ≥ diff then
            let p2 := peek_bits req_bits diff p1.st.toggle
            if p2.ok = false then
              ⟨(fb : Int) + min_val, p2.st, r1.ncalls + r2.ncalls + p1.ncalls + p2.ncalls + 1,
                r1.readsOk && r2.readsOk && p1.readsOk && p2.readsOk⟩
            else
              ⟨p2.res + min_val, p2.st, r1.ncalls + r2.ncalls + p1.ncalls + p2.ncalls,
                r1.readsOk && r2.readsOk && p1.readsOk && p2.readsOk⟩
          else
            ⟨r2.val + min_val, p1.st, r1.ncalls + r2.ncalls + p1.ncalls,
              r1.readsOk && r2.readsOk && p1.readsOk⟩
        else
          ⟨p1.res + min_val, p1.st, r1.ncalls + r2.ncalls + p1.ncalls,
            r1.readsOk && r2.readsOk && p1.readsOk⟩
      else ⟨r2.val + min_val, r2.st, r1.ncalls + r2.ncalls, r1.readsOk && r2.readsOk⟩
    else ⟨r1.val + min_val, r1.st, r1.ncalls, r1.readsOk⟩

/-- `random(max_val)` (RandomX1.h lines 173-176): `random(0, max_val)`. -/
def random1 (f1 f2 fb : Nat) (max_val : Int) (s : RState) : LOut :=
  random2 f1 f2 fb 0 max_val s

/-- The constructor (RandomX1.h lines 44-53): both buffers filled by one
`::random(LONG_MAX)` call each (`w0`, `w1`), both counts set to
`BITS_PER_NATIVE_RANDOM`, control index 0. -/
def init (w0 w1 : Nat) : RState :=
  ⟨w0 % 2 ^ 32, w1 % 2 ^ 32, BITS_PER_NATIVE_RANDOM, BITS_PER_NATIVE_RANDOM, 0⟩

/-- The native source's internal state, kept abstract as one number.  The
source itself is external to the repository (Arduino `::random` /
`::randomSeed`); only the fact that `::randomSeed` touches nothing but this
state matters here. -/
structure NativeSrc where
  state : Nat
  deriving DecidableEq

/-- `RandomX1::randomSeed(seed)` (RandomX1.h lines 66-69): delegates to
`::randomSeed(seed)`, which reinitializes only the native source's state;
no member of the generator is touched. -/
def randomSeed (seed : Nat) (s : RState) (_n : NativeSrc) : RState × NativeSrc :=
  (s, ⟨seed⟩)

/-- State invariant: both counts within the native width, both buffers hold
no set bits at or above their count (so stale positions are zero), control
index is 0 or 1. -/
def StateInv (s : RState) : Prop :=
  s.cnt0 ≤ 31 ∧ s.cnt1 ≤ 31 ∧ s.bits0 < 2 ^ s.cnt0 ∧ s.bits1 < 2 ^ s.cnt1 ∧ s.idx ≤ 1

instance (s : RState) : Decidable (StateInv s) := by
  unfold StateInv
  infer_instance

/-! ### Basic facts about the helpers -/

lemma get_mask_eq (c : Nat) (hc : c ≤ 31) : get_mask c = 2 ^ c - 1 := by
  interval_cases c <;> rfl

lemma u8sub_eq (a b : Nat) (hb : b ≤ a) (ha : a < 2 ^ 8 + b) (hb8 : b < 2 ^ 8) :
    u8sub a b = a - b := by
  unfold u8sub
  have h8 : (2 : Nat) ^ 8 = 256 := by norm_num
  rw [h8] at *
  omega

lemma toLong_of_lt (x : Nat) (hx : x < 2 ^ 31) : toLong x = x := by
  have h32 : x % 2 ^ 32 = x := Nat.mod_eq_of_lt (lt_trans hx (by norm_num))
  unfold toLong
  rw [h32, if_pos hx]

lemma RState.idx_setAt (s : RState) (b c : Nat) : (s.setAt b c).idx = s.idx := by
  unfold RState.setAt
  split <;> rfl

lemma StateInv.cntAt_le {s : RState} (hInv : StateInv s) : s.cntAt ≤ 31 := by
  obtain ⟨h1, h2, _, _, _⟩ := hInv
  unfold RState.cntAt
  split <;> assumption

lemma StateInv.bitsAt_lt {s : RState} (hInv : StateInv s) : s.bitsAt < 2 ^ s.cntAt := by
  obtain ⟨_, _, h3, h4, _⟩ := hInv
  by_cases h : s.idx = 0 <;> simp only [RState.bitsAt, RState.cntAt, h, if_pos, if_neg,
    if_true, if_false] <;> first | exact h3 | exact h4

lemma StateInv.setAt {s : RState} (hInv : StateInv s) {b c : Nat} (hc : c ≤ 31)
    (hb : b < 2 ^ c) : StateInv (s.setAt b c) := by
  obtain ⟨h1, h2, h3, h4, h5⟩ := hInv
  unfold RState.setAt
  split
  · exact ⟨hc, h2, hb, h4, h5⟩
  · exact ⟨h1, hc, h3, hb, h5⟩

lemma StateInv.toggle {s : RState} (hInv : StateInv s) : StateInv s.toggle := by
  obtain ⟨h1, h2, h3, h4, h5⟩ := hInv
  refine ⟨h1, h2, h3, h4, ?_⟩
  show s.idx ^^^ 1 ≤ 1
  rcases Nat.le_one_iff_eq_zero_or_eq_one.mp h5 with h | h <;> rw [h] <;> decide

/-! ### `_get_bits`: branch characterizations and the main bound -/

lemma get_bits_refill (fresh bc : Nat) (s : RState) (h : bc > s.cntAt) :
    get_bits fresh bc s =
      ⟨((s.bitsAt <<< u8sub bc s.cntAt) % 2 ^ 32) |||
          (fresh % 2 ^ 32 &&& get_mask (u8sub bc s.cntAt)),
        s.setAt ((fresh % 2 ^ 32) >>> u8sub bc s.cntAt)
          (u8sub BITS_PER_NATIVE_RANDOM (u8sub bc s.cntAt)),
        1, decide (u8sub bc s.cntAt ≤ BITS_PER_NATIVE_RANDOM)⟩ := by
  unfold get_bits
  rw [if_pos h]

lemma get_bits_nofill (fresh bc : Nat) (s : RState) (h : ¬ bc > s.cntAt) :
    get_bits fresh bc s =
      ⟨s.bitsAt &&& get_mask bc,
        s.setAt (s.bitsAt >>> bc) (u8sub s.cntAt bc), 0, true⟩ := by
  unfold get_bits
  rw [if_neg h]

lemma get_bits_master (fresh bc : Nat) (s : RState)
    (hInv : StateInv s) (hf : fresh < 2 ^ 31) (hbc : bc ≤ 31) :
    (get_bits fresh bc s).val < 2 ^ bc ∧ StateInv (get_bits fresh bc s).st ∧
      (get_bits fresh bc s).readsOk = true ∧ (get_bits fresh bc s).ncalls ≤ 1 := by
  have hcnt : s.cntAt ≤ 31 := hInv.cntAt_le
  have hblt : s.bitsAt < 2 ^ s.cntAt := hInv.bitsAt_lt
  have hB : BITS_PER_NATIVE_RANDOM = 31 := rfl
  by_cases h : bc > s.cntAt
  · rw [get_bits_refill fresh bc s h]
    have hsub : u8sub bc s.cntAt = bc - s.cntAt :=
      u8sub_eq _ _ (le_of_lt h) (by norm_num; omega) (by norm_num; omega)
    have hsub31 : u8sub BITS_PER_NATIVE_RANDOM (u8sub bc s.cntAt) = 31 - (bc - s.cntAt) := by
      rw [hB, hsub]
      exact u8sub_eq _ _ (by omega) (by norm_num; omega) (by norm_num; omega)
    have hpow : 2 ^ s.cntAt * 2 ^ (bc - s.cntAt) = 2 ^ bc := by
      rw [← pow_add]
      congr 1
      omega
    have hhi : (s.bitsAt <<< u8sub bc s.cntAt) % 2 ^ 32 < 2 ^ bc := by
      calc (s.bitsAt <<< u8sub bc s.cntAt) % 2 ^ 32 ≤ s.bitsAt <<< u8sub bc s.cntAt :=
            Nat.mod_le _ _
        _ = s.bitsAt * 2 ^ (bc - s.cntAt) := by rw [hsub, Nat.shiftLeft_eq]
        _ < 2 ^ s.cntAt * 2 ^ (bc - s.cntAt) :=
            (Nat.mul_lt_mul_right (Nat.two_pow_pos _)).mpr hblt
        _ = 2 ^ bc := hpow
    have hmask : get_mask (u8sub bc s.cntAt) < 2 ^ (bc - s.cntAt) := by
      rw [hsub, get_mask_eq _ (by omega)]
      exact Nat.sub_lt (Nat.two_pow_pos _) (by norm_num)
    have hlow : fresh % 2 ^ 32 &&& get_mask (u8sub bc s.cntAt) < 2 ^ bc :=
      lt_of_lt_of_le (Nat.and_lt_two_pow _ hmask)
        (Nat.pow_le_pow_right (by norm_num) (by omega))
    refine ⟨Nat.or_lt_two_pow hhi hlow, ?_, ?_, le_refl 1⟩
    · rw [hsub31]
      refine hInv.setAt (by omega) ?_
      have hfw : fresh % 2 ^ 32 < 2 ^ 31 := lt_of_le_of_lt (Nat.mod_le _ _) hf
      rw [Nat.shiftRight_eq_div_pow, hsub]
      have hp : 2 ^ (31 - (bc - s.cntAt)) * 2 ^ (bc - s.cntAt) = 2 ^ 31 := by
        rw [← pow_add]
        congr 1
        omega
      exact Nat.div_lt_of_lt_mul (by rw [Nat.mul_comm, hp]; exact hfw)
    · rw [decide_eq_true_eq, hB, hsub]
      omega
  · rw [get_bits_nofill fresh bc s h]
    have hle : bc ≤ s.cntAt := Nat.not_lt.mp h
    have hmask : get_mask bc < 2 ^ bc := by
      rw [get_mask_eq _ hbc]
      exact Nat.sub_lt (Nat.two_pow_pos _) (by norm_num)
    refine ⟨Nat.and_lt_two_pow _ hmask, ?_, rfl, by norm_num⟩
    rw [u8sub_eq _ _ hle (by norm_num; omega) (by norm_num; omega)]
    refine hInv.setAt (by omega) ?_
    rw [Nat.shiftRight_eq_div_pow]
    have : 2 ^ (s.cntAt - bc) * 2 ^ bc = 2 ^ s.cntAt := by
      rw [← pow_add]
      congr 1
      omega
    exact Nat.div_lt_of_lt_mul (by rw [Nat.mul_comm, this]; exact hblt)

/-! ### `randomBits`: characterizations and bounds -/

lemma randomBits_zero (f : Nat) (off : Int) (s : RState) :
    randomBits f 0 off s = ⟨0, s, 0, true⟩ := rfl

lemma randomBits_pos (f c : Nat) (off : Int) (s : RState) (h0 : ¬ c = 0)
    (h20 : c ≤ MAX_BITS_PER_RANDOM_REQUEST) :
    randomBits f c off s =
      ⟨toLong (get_bits f c s.toggle).val + off, (get_bits f c s.toggle).st,
        (get_bits f c s.toggle).ncalls, (get_bits f c s.toggle).readsOk⟩ := by
  unfold randomBits
  rw [if_neg h0, if_neg (Nat.not_lt.mpr h20)]

lemma randomBits_clamp (f c : Nat) (off : Int) (s : RState)
    (h20 : MAX_BITS_PER_RANDOM_REQUEST < c) :
    randomBits f c off s = randomBits f MAX_BITS_PER_RANDOM_REQUEST off s := by
  have hM : MAX_BITS_PER_RANDOM_REQUEST = 20 := rfl
  unfold randomBits
  rw [if_neg (by omega), if_pos h20, if_neg (by omega), if_neg (by omega)]

lemma randomBits_master (f c : Nat) (off : Int) (s : RState)
    (hInv : StateInv s) (hf : f < 2 ^ 31) (h0 : 1 ≤ c) (h20 : c ≤ 20) :
    off ≤ (randomBits f c off s).val ∧ (randomBits f c off s).val < off + 2 ^ c ∧
      StateInv (randomBits f c off s).st ∧ (randomBits f c off s).readsOk = true ∧
      (randomBits f c off s).ncalls ≤ 1 := by
  have hM : MAX_BITS_PER_RANDOM_REQUEST = 20 := rfl
  rw [randomBits_pos f c off s (by omega) (by omega)]
  dsimp only
  obtain ⟨hv, hs, hr, hn⟩ := get_bits_master f c s.toggle hInv.toggle hf (by omega)
  have hval : toLong (get_bits f c s.toggle).val = ((get_bits f c s.toggle).val : Int) :=
    toLong_of_lt _ (lt_of_lt_of_le hv (Nat.pow_le_pow_right (by norm_num) (by omega)))
  have hcast : ((get_bits f c s.toggle).val : Int) < 2 ^ c := by exact_mod_cast hv
  refine ⟨?_, ?_, hs, hr, hn⟩
  · rw [hval]
    omega
  · rw [hval]
    omega

lemma randomBits_state (f c : Nat) (off : Int) (s : RState)
    (hInv : StateInv s) (hf : f < 2 ^ 31) :
    StateInv (randomBits f c off s).st ∧ (randomBits f c off s).readsOk = true := by
  have hM : MAX_BITS_PER_RANDOM_REQUEST = 20 := rfl
  by_cases h0 : c = 0
  · subst h0
    rw [randomBits_zero]
    exact ⟨hInv, rfl⟩
  by_cases h20 : c ≤ 20
  · obtain ⟨_, _, hs, hr, _⟩ := randomBits_master f c off s hInv hf (by omega) h20
    exact ⟨hs, hr⟩
  · rw [randomBits_clamp f c off s (by omega)]
    obtain ⟨_, _, hs, hr, _⟩ := randomBits_master f 20 off s hInv hf (by omega) (by omega)
    rw [hM]
    exact ⟨hs, hr⟩

lemma get_bits_ncalls (f c : Nat) (s : RState) : (get_bits f c s).ncalls ≤ 1 := by
  unfold get_bits
  split <;> norm_num

lemma randomBits_ncalls (f c : Nat) (off : Int) (s : RState) :
    (randomBits f c off s).ncalls ≤ 1 := by
  unfold randomBits
  split
  · norm_num
  · exact get_bits_ncalls _ _ _

/-! ### `_peek_bits`: characterizations and bounds -/

lemma peek_bits_hit (bc : Nat) (num : Int) (s : RState) (h1 : s.cntAt ≥ bc)
    (h2 : s.bitsAt &&& get_mask bc < uint32OfLong num) :
    peek_bits bc num s = ⟨true, toLong (get_bits 0 bc s).val, (get_bits 0 bc s).st,
      (get_bits 0 bc s).ncalls, (get_bits 0 bc s).readsOk⟩ := by
  unfold peek_bits
  rw [if_pos h1, if_pos h2]

lemma peek_bits_miss (bc : Nat) (num : Int) (s : RState)
    (h : ¬ (s.cntAt ≥ bc ∧ s.bitsAt &&& get_mask bc < uint32OfLong num)) :
    peek_bits bc num s = ⟨false, 0, s, 0, true⟩ := by
  unfold peek_bits
  by_cases h1 : s.cntAt ≥ bc
  · rw [if_pos h1, if_neg (fun h2 => h ⟨h1, h2⟩)]
  · rw [if_neg h1]

lemma peek_bits_ncalls (bc : Nat) (num : Int) (s : RState) :
    (peek_bits bc num s).ncalls = 0 := by
  by_cases h1 : s.cntAt ≥ bc
  · by_cases h2 : s.bitsAt &&& get_mask bc < uint32OfLong num
    · rw [peek_bits_hit bc num s h1 h2, get_bits_nofill 0 bc s (by omega)]
    · rw [peek_bits_miss bc num s (fun hx => h2 hx.2)]
  · rw [peek_bits_miss bc num s (fun hx => h1 hx.1)]

lemma peek_bits_master (bc : Nat) (num : Int) (s : RState)
    (hInv : StateInv s) (hbc : bc ≤ 31) (hnum0 : 0 < num) (hnum1 : num < 2 ^ 31) :
    StateInv (peek_bits bc num s).st ∧ (peek_bits bc num s).readsOk = true ∧
      ((peek_bits bc num s).ok = true →
        0 ≤ (peek_bits bc num s).res ∧ (peek_bits bc num s).res < num) ∧
      ((peek_bits bc num s).ok = false → (peek_bits bc num s).st = s) := by
  by_cases h1 : s.cntAt ≥ bc
  · by_cases h2 : s.bitsAt &&& get_mask bc < uint32OfLong num
    · rw [peek_bits_hit bc num s h1 h2]
      dsimp only
      obtain ⟨hv, hs, hr, _⟩ := get_bits_master 0 bc s hInv (by norm_num) hbc
      have hval : toLong (get_bits 0 bc s).val = ((get_bits 0 bc s).val : Int) :=
        toLong_of_lt _ (lt_of_lt_of_le hv (Nat.pow_le_pow_right (by norm_num) hbc))
      refine ⟨hs, hr, fun _ => ⟨by rw [hval]; exact Int.ofNat_nonneg _, ?_⟩,
        fun hx => Bool.noConfusion hx⟩
      have hu : uint32OfLong num = num.toNat := by
        unfold uint32OfLong
        rw [Int.emod_eq_of_lt (le_of_lt hnum0) (lt_trans hnum1 (by norm_num))]
      have hgv : (get_bits 0 bc s).val = s.bitsAt &&& get_mask bc := by
        rw [get_bits_nofill 0 bc s (by omega)]
      rw [hval, hgv]
      rw [hu] at h2
      omega
    · rw [peek_bits_miss bc num s (fun hx => h2 hx.2)]
      exact ⟨hInv, rfl, fun hx => Bool.noConfusion hx, fun _ => rfl⟩
  · rw [peek_bits_miss bc num s (fun hx => h1 hx.1)]
    exact ⟨hInv, rfl, fun hx => Bool.noConfusion hx, fun _ => rfl⟩

/-! ### The `REQUIRED_BITS` table and `_get_required_bits` -/

lemma REQUIRED_BITS_bounds :
    ∀ m : Nat, m < 256 → m < 2 ^ REQUIRED_BITS.getD m 0 ∧
      2 ^ REQUIRED_BITS.getD m 0 ≤ 2 * m + 1 ∧
      REQUIRED_BITS.getD m 0 ≤ 8 ∧
      (1 ≤ m → 1 ≤ REQUIRED_BITS.getD m 0 ∧
        2 ^ REQUIRED_BITS.getD m 0 ≤ 2 * m) := by
  decide

lemma grb_small (d : Nat) (hd : d < 256) :
    get_required_bits d = REQUIRED_BITS.getD d 0 := by
  have h8 : d >>> 8 = 0 := by
    rw [Nat.shiftRight_eq_div_pow]
    exact Nat.div_eq_of_lt (by norm_num; omega)
  simp only [get_required_bits, h8, if_pos]

lemma MAX_VALUE_eq : MAX_VALUE_PER_RANDOM_REQUEST = 255 := by decide

lemma spanClamped_eq (min_val max_val : Int) :
    spanClamped min_val max_val =
      if max_val - min_val - 1 > 255 then 255 else max_val - min_val - 1 := by
  unfold spanClamped
  rw [MAX_VALUE_eq]
  norm_num

lemma spanClamped_bounds (min_val max_val : Int) (hd : 0 < max_val - min_val - 1) :
    1 ≤ spanClamped min_val max_val ∧ spanClamped min_val max_val ≤ 255 ∧
      spanClamped min_val max_val ≤ max_val - min_val - 1 := by
  rw [spanClamped_eq]
  split <;> omega

/-! ### `random2`: characterizations, call bound, and the main bound -/

lemma random2_degenerate (f1 f2 fb : Nat) (min_val max_val : Int) (s : RState)
    (hd : max_val - min_val - 1 ≤ 0) :
    random2 f1 f2 fb min_val max_val s = ⟨0, s, 0, true⟩ := by
  unfold random2
  rw [if_pos hd]

lemma random2_ncalls_le (f1 f2 fb : Nat) (min_val max_val : Int) (s : RState) :
    (random2 f1 f2 fb min_val max_val s).ncalls ≤ 3 := by
  have k1 := randomBits_ncalls f1 (get_required_bits (spanClamped min_val max_val).toNat) 0 s
  have k2 := randomBits_ncalls f2 (get_required_bits (spanClamped min_val max_val).toNat) 0
    (randomBits f1 (get_required_bits (spanClamped min_val max_val).toNat) 0 s).st
  have k3 := peek_bits_ncalls (get_required_bits (spanClamped min_val max_val).toNat)
    (spanClamped min_val max_val)
    (randomBits f2 (get_required_bits (spanClamped min_val max_val).toNat) 0
      (randomBits f1 (get_required_bits (spanClamped min_val max_val).toNat) 0 s).st).st
  have k4 := peek_bits_ncalls (get_required_bits (spanClamped min_val max_val).toNat)
    (spanClamped min_val max_val)
    (peek_bits (get_required_bits (spanClamped min_val max_val).toNat)
      (spanClamped min_val max_val)
      (randomBits f2 (get_required_bits (spanClamped min_val max_val).toNat) 0
        (randomBits f1 (get_required_bits (spanClamped min_val max_val).toNat) 0 s).st).st).st.toggle
  unfold random2
  split
  · norm_num
  · dsimp only
    split_ifs <;> dsimp only <;> omega

lemma random2_master (f1 f2 fb : Nat) (min_val max_val : Int) (s : RState)
    (hInv : StateInv s) (h1 : f1 < 2 ^ 31) (h2 : f2 < 2 ^ 31)
    (hd : 0 < max_val - min_val - 1) :
    min_val ≤ (random2 f1 f2 fb min_val max_val s).val ∧
      ((fb : Int) < spanClamped min_val max_val →
        (random2 f1 f2 fb min_val max_val s).val < min_val + spanClamped min_val max_val) ∧
      StateInv (random2 f1 f2 fb min_val max_val s).st ∧
      (random2 f1 f2 fb min_val max_val s).readsOk = true := by
  obtain ⟨hD1, hD255, hDle⟩ := spanClamped_bounds min_val max_val hd
  have hDt_lt : (spanClamped min_val max_val).toNat < 256 := by omega
  obtain ⟨_, _, ht8, hpos⟩ :=
    REQUIRED_BITS_bounds (spanClamped min_val max_val).toNat hDt_lt
  obtain ⟨ht1, _⟩ := hpos (by omega)
  have hRB8 : get_required_bits (spanClamped min_val max_val).toNat ≤ 8 := by
    rw [grb_small _ hDt_lt]
    exact ht8
  have hRB1 : 1 ≤ get_required_bits (spanClamped min_val max_val).toNat := by
    rw [grb_small _ hDt_lt]
    exact ht1
  obtain ⟨ha1, hb1, hs1, hk1, _⟩ :=
    randomBits_master f1 (get_required_bits (spanClamped min_val max_val).toNat) 0 s
      hInv h1 hRB1 (by omega)
  obtain ⟨ha2, hb2, hs2, hk2, _⟩ :=
    randomBits_master f2 (get_required_bits (spanClamped min_val max_val).toNat) 0
      (randomBits f1 (get_required_bits (spanClamped min_val max_val).toNat) 0 s).st
      hs1 h2 hRB1 (by omega)
  have hDpos : (0 : Int) < spanClamped min_val max_val := by omega
  have hDlt31 : spanClamped min_val max_val < 2 ^ 31 :=
    lt_of_le_of_lt hD255 (by norm_num)
  obtain ⟨hq1s, hq1r, hq1res, hq1miss⟩ :=
    peek_bits_master (get_required_bits (spanClamped min_val max_val).toNat)
      (spanClamped min_val max_val)
      (randomBits f2 (get_required_bits (spanClamped min_val max_val).toNat) 0
        (randomBits f1 (get_required_bits (spanClamped min_val max_val).toNat) 0 s).st).st
      hs2 (by omega) hDpos hDlt31
  obtain ⟨hq2s, hq2r, hq2res, hq2miss⟩ :=
    peek_bits_master (get_required_bits (spanClamped min_val max_val).toNat)
      (spanClamped min_val max_val)
      (peek_bits (get_required_bits (spanClamped min_val max_val).toNat)
        (spanClamped min_val max_val)
        (randomBits f2 (get_required_bits (spanClamped min_val max_val).toNat) 0
          (randomBits f1 (get_required_bits (spanClamped min_val max_val).toNat) 0 s).st).st).st.toggle
      hq1s.toggle (by omega) hDpos hDlt31
  unfold random2
  rw [if_neg (by omega)]
  dsimp only
  split_ifs with c1 c2 c3 c4 <;> dsimp only
  · -- two draws rejected, both peeks missed: native fallback
    refine ⟨by omega, fun hfb => by omega, hq2s, ?_⟩
    rw [hk1, hk2, hq1r, hq2r]
    rfl
  · -- two draws rejected, first peek missed, second peek hit
    simp only [Bool.not_eq_false] at c4
    obtain ⟨hr0, hrD⟩ := hq2res c4
    refine ⟨by omega, fun hfb => by omega, hq2s, ?_⟩
    rw [hk1, hk2, hq1r, hq2r]
    rfl
  · -- two draws rejected, first peek hit
    simp only [Bool.not_eq_false] at c3
    obtain ⟨hr0, hrD⟩ := hq1res c3
    refine ⟨by omega, fun hfb => by omega, hq1s, ?_⟩
    rw [hk1, hk2, hq1r]
    rfl
  · -- second draw accepted
    refine ⟨by omega, fun hfb => by omega, hs2, ?_⟩
    rw [hk1, hk2]
    rfl
  · -- first draw accepted
    refine ⟨by omega, fun hfb => by omega, hs1, ?_⟩
    rw [hk1]

/-! ### `_get_required_bits` equals the minimum bit width (`Nat.size`) -/

lemma size_eq_of (n k : Nat) (h1 : n < 2 ^ k) (h2 : 2 ^ k ≤ 2 * n + 1) : Nat.size n = k := by
  refine le_antisymm (Nat.size_le.mpr h1) ?_
  cases k with
  | zero => exact Nat.zero_le _
  | succ k' =>
    have hp : 2 ^ (k' + 1) = 2 * 2 ^ k' := by rw [pow_succ]; ring
    have h3 : 2 ^ k' ≤ n := by omega
    exact Nat.lt_size.mpr h3

lemma grb_eq_size (n : Nat) (hn : n ≤ 2 ^ 20) : get_required_bits n = Nat.size n := by
  by_cases h1 : n < 256
  · rw [grb_small n h1]
    obtain ⟨p1, p2, _, _⟩ := REQUIRED_BITS_bounds n h1
    exact (size_eq_of n _ p1 p2).symm
  · by_cases h2 : n < 65536
    · have e1 : n >>> 8 = n / 256 := by
        rw [Nat.shiftRight_eq_div_pow]
      have hm255 : n / 256 < 256 := by omega
      have hbr : get_required_bits n = 8 + REQUIRED_BITS.getD (n / 256) 0 := by
        simp only [get_required_bits, e1]
        rw [if_neg (by omega),
          show (n / 256) >>> 8 = 0 from by
            rw [Nat.shiftRight_eq_div_pow]
            norm_num
            omega,
          if_pos rfl]
      obtain ⟨p1, _, _, hp⟩ := REQUIRED_BITS_bounds (n / 256) hm255
      obtain ⟨t1, p3⟩ := hp (by omega)
      have hpa : 2 ^ (8 + REQUIRED_BITS.getD (n / 256) 0)
          = 256 * 2 ^ REQUIRED_BITS.getD (n / 256) 0 := by
        rw [pow_add]
        norm_num
      rw [hbr]
      exact (size_eq_of n _ (by omega) (by omega)).symm
    · have e1 : n >>> 8 = n / 256 := by
        rw [Nat.shiftRight_eq_div_pow]
      have e2 : (n / 256) >>> 8 = n / 65536 := by
        rw [Nat.shiftRight_eq_div_pow]
        norm_num [Nat.div_div_eq_div_mul]
      have hm16 : n / 65536 < 256 := by omega
      have hbr : get_required_bits n = 16 + REQUIRED_BITS.getD (n / 65536) 0 := by
        simp only [get_required_bits, e1, e2]
        rw [if_neg (by omega), if_neg (by omega),
          show (n / 65536) >>> 8 = 0 from by
            rw [Nat.shiftRight_eq_div_pow]
            norm_num
            omega,
          if_pos rfl]
      obtain ⟨p1, _, _, hp⟩ := REQUIRED_BITS_bounds (n / 65536) hm16
      obtain ⟨t1, p3⟩ := hp (by omega)
      have hpa : 2 ^ (16 + REQUIRED_BITS.getD (n / 65536) 0)
          = 65536 * 2 ^ REQUIRED_BITS.getD (n / 65536) 0 := by
        rw [pow_add]
        norm_num
      rw [hbr]
      exact (size_eq_of n _ (by omega) (by omega)).symm

lemma size_eq_clog (n : Nat) : Nat.size n = Nat.clog 2 (n + 1) := by
  refine le_antisymm ?_ ?_
  · exact Nat.size_le.mpr (Nat.lt_of_succ_le (Nat.le_pow_clog one_lt_two (n + 1)))
  · exact (Nat.le_pow_iff_clog_le one_lt_two).mp (Nat.succ_le_of_lt (Nat.lt_size_self n))

/-! ### Claim theorems -/

/-- C1: the claim states that `MAX_VALUE_PER_RANDOM_REQUEST = 2^20 - 1` and
that spans are clamped at `2^20 - 1`.  In the code the constant is declared
`uint8_t`, so `(1 << 20) - 1 = 1048575` is truncated to `255`, and
`random(min, max)` clamps every span at `255` (e.g. the span `999` of
`random(0, 1000)` is clamped to `255`), contradicting the code's own
comments at lines 81 and 116 ("limited to 1048576"). -/
theorem C1_max_value_truncated :
    MAX_VALUE_PER_RANDOM_REQUEST = 255 ∧ MAX_VALUE_PER_RANDOM_REQUEST ≠ 2 ^ 20 - 1 ∧
      spanClamped 0 1000 = 255 := by
  refine ⟨MAX_VALUE_eq, by decide, ?_⟩
  rw [spanClamped_eq]
  norm_num

/-- C2 counterexample: from the freshly constructed state, `randomBits(0, 1)`
returns `0`, not the offset `1` as the claim states. -/
theorem C2_counterexample : (randomBits 0 0 1 (init 0 0)).val ≠ 1 := by decide

/-- C2 (amended): for every offset, `randomBits(0, offset)` returns exactly
`0` (not `offset`), consumes no buffer state, and makes no native call. -/
theorem C2_randomBits_zero_count (f : Nat) (offset : Int) (s : RState) :
    randomBits f 0 offset s = ⟨0, s, 0, true⟩ :=
  randomBits_zero f offset s

/-- C3 counterexample: for `min = 5`, `max = 6` (so `max > min`) the claim
requires a return value in `[5, 6)`; from the freshly constructed state the
code returns `0`. -/
theorem C3_counterexample :
    ¬ (5 ≤ (random2 0 0 0 5 6 (init 0 0)).val ∧ (random2 0 0 0 5 6 (init 0 0)).val < 6) := by
  decide

/-- C3 (amended): for every `min` and `max` with `max - min ≥ 2`, from every
state satisfying the buffer invariant and with the native draws in their
documented ranges, `random(min, max)` returns `v` with `min ≤ v < max`;
for `max - min ≤ 1` (in particular whenever `max ≤ min`) it returns `0`. -/
theorem C3_random_range (f1 f2 fb : Nat) (min_val max_val : Int) (s : RState)
    (hInv : StateInv s) (h1 : f1 < 2 ^ 31 - 1) (h2 : f2 < 2 ^ 31 - 1)
    (hfb : 1 < max_val - min_val → (fb : Int) < spanClamped min_val max_val) :
    (1 < max_val - min_val →
      min_val ≤ (random2 f1 f2 fb min_val max_val s).val ∧
        (random2 f1 f2 fb min_val max_val s).val < max_val) ∧
    (max_val - min_val ≤ 1 → (random2 f1 f2 fb min_val max_val s).val = 0) := by
  constructor
  · intro hgt
    have hd : 0 < max_val - min_val - 1 := by omega
    obtain ⟨hlo, hhi', _, _⟩ :=
      random2_master f1 f2 fb min_val max_val s hInv (by omega) (by omega) hd
    have hhi := hhi' (hfb hgt)
    obtain ⟨_, _, hDle⟩ := spanClamped_bounds min_val max_val hd
    exact ⟨hlo, by omega⟩
  · intro hle
    rw [random2_degenerate f1 f2 fb min_val max_val s (by omega)]

theorem C3_witness :
    (1 < (8 : Int) - 5 →
      (5 : Int) ≤ (random2 0 0 0 5 8 (init 0 0)).val ∧
        (random2 0 0 0 5 8 (init 0 0)).val < 8) ∧
    ((8 : Int) - 5 ≤ 1 → (random2 0 0 0 5 8 (init 0 0)).val = 0) :=
  C3_random_range 0 0 0 5 8 (init 0 0) (by decide) (by decide) (by decide) (by decide)

/-- C4: for every `count` in `[1, 20]`, every offset, and every state
satisfying the buffer invariant (with the native refill word in its
documented range), `randomBits(count, offset)` returns a value in
`[offset, offset + 2^count)`; for `count > 20` (within the `uint8_t`
argument domain) the call behaves exactly as `randomBits(20, offset)`. -/
theorem C4_randomBits_range (f c : Nat) (offset : Int) (s : RState)
    (hInv : StateInv s) (hf : f < 2 ^ 31 - 1) (hc : c < 2 ^ 8) :
    (1 ≤ c → c ≤ 20 →
      offset ≤ (randomBits f c offset s).val ∧
        (randomBits f c offset s).val < offset + 2 ^ c) ∧
    (20 < c → randomBits f c offset s = randomBits f 20 offset s) := by
  constructor
  · intro hc1 hc2
    obtain ⟨hlo, hhi, _, _, _⟩ := randomBits_master f c offset s hInv (by omega) hc1 hc2
    exact ⟨hlo, hhi⟩
  · intro h20
    have hM : MAX_BITS_PER_RANDOM_REQUEST = 20 := rfl
    have hcl := randomBits_clamp f c offset s (by omega)
    rw [hM] at hcl
    exact hcl

theorem C4_witness :
    ((1 ≤ 5 → 5 ≤ 20 →
      (-3 : Int) ≤ (randomBits 0 5 (-3) (init 0 0)).val ∧
        (randomBits 0 5 (-3) (init 0 0)).val < -3 + 2 ^ 5) ∧
    (20 < 5 → randomBits 0 5 (-3) (init 0 0) = randomBits 0 20 (-3) (init 0 0))) :=
  C4_randomBits_range 0 5 (-3) (init 0 0) (by decide) (by decide) (by decide)

/-- C5: `_get_required_bits(n)` equals `ceil(log2(n + 1))` (that is,
`Nat.clog 2 (n + 1)`) for every `n` up to `2^20`, as computed from the
256-entry lookup table combined with 8-bit right shifts. -/
theorem C5_required_bits (n : Nat) (hn : n ≤ 2 ^ 20) :
    get_required_bits n = Nat.clog 2 (n + 1) :=
  (grb_eq_size n hn).trans (size_eq_clog n)

theorem C5_witness :
    1048575 ≤ 2 ^ 20 ∧ get_required_bits 1048575 = Nat.clog 2 (1048575 + 1) :=
  ⟨by norm_num, C5_required_bits 1048575 (by norm_num)⟩

/-- C6: the buffer invariant.  Construction establishes it; `randomSeed`,
`randomBits` (any `uint8_t` count) and `random` preserve it, so after every
sequence of public operations each `m_bitCounts[i]` stays in `[0, 31]` and
each `m_bits[i]` holds no set bits at positions at or above
`m_bitCounts[i]` (`StateInv`); moreover every masked extraction performed
along the way used a width not exceeding the bits then available in the
buffer it read (`readsOk`). -/
theorem C6_buffer_invariant (w0 w1 f f1 f2 fb c seed : Nat)
    (off min_val max_val : Int) (s : RState) (n : NativeSrc)
    (hw0 : w0 < 2 ^ 31 - 1) (hw1 : w1 < 2 ^ 31 - 1)
    (hf : f < 2 ^ 31 - 1) (h1 : f1 < 2 ^ 31 - 1) (h2 : f2 < 2 ^ 31 - 1)
    (hInv : StateInv s) :
    StateInv (init w0 w1) ∧
      (randomSeed seed s n).1 = s ∧
      (StateInv (randomBits f c off s).st ∧ (randomBits f c off s).readsOk = true) ∧
      (StateInv (random2 f1 f2 fb min_val max_val s).st ∧
        (random2 f1 f2 fb min_val max_val s).readsOk = true) := by
  refine ⟨?_, rfl, randomBits_state f c off s hInv (by omega), ?_⟩
  · refine ⟨le_refl 31, le_refl 31, ?_, ?_, Nat.zero_le 1⟩
    · show w0 % 2 ^ 32 < 2 ^ 31
      have hm := Nat.mod_le w0 (2 ^ 32)
      omega
    · show w1 % 2 ^ 32 < 2 ^ 31
      have hm := Nat.mod_le w1 (2 ^ 32)
      omega
  · by_cases hd : max_val - min_val - 1 ≤ 0
    · rw [random2_degenerate f1 f2 fb min_val max_val s hd]
      exact ⟨hInv, rfl⟩
    · obtain ⟨_, _, hs, hr⟩ :=
        random2_master f1 f2 fb min_val max_val s hInv (by omega) (by omega) (by omega)
      exact ⟨hs, hr⟩

theorem C6_witness :
    StateInv (init 0 0) ∧
      (randomSeed 42 (init 0 0) ⟨0⟩).1 = init 0 0 ∧
      (StateInv (randomBits 0 5 0 (init 0 0)).st ∧
        (randomBits 0 5 0 (init 0 0)).readsOk = true) ∧
      (StateInv (random2 0 0 0 0 10 (init 0 0)).st ∧
        (random2 0 0 0 0 10 (init 0 0)).readsOk = true) :=
  C6_buffer_invariant 0 0 0 0 0 0 5 42 0 0 10 (init 0 0) ⟨0⟩
    (by decide) (by decide) (by decide) (by decide) (by decide) (by decide)

/-- C7: `random(min, max)` is a total function of the generator state and
the (at most three) native values it may consume, hence always terminates;
it invokes the native source at most 4 times (in fact at most 3: one
possible refill in each of the two draws, none during the peeks, and at
most one direct fallback draw). -/
theorem C7_native_call_bound (f1 f2 fb : Nat) (min_val max_val : Int) (s : RState) :
    (random2 f1 f2 fb min_val max_val s).ncalls ≤ 4 :=
  le_trans (random2_ncalls_le f1 f2 fb min_val max_val s) (by norm_num)

/-- C8: for every `min` and `max` with `max - min ≥ 2`, from every state
satisfying the buffer invariant and with the native draws in their
documented ranges, `random(min, max)` never returns `max - 1`: every
accepted candidate is strictly below the (possibly clamped) span, so all
outputs lie in `[min, max - 1)`. -/
theorem C8_never_max_minus_one (f1 f2 fb : Nat) (min_val max_val : Int) (s : RState)
    (hInv : StateInv s) (h1 : f1 < 2 ^ 31 - 1) (h2 : f2 < 2 ^ 31 - 1)
    (hd : 2 ≤ max_val - min_val) (hfb : (fb : Int) < spanClamped min_val max_val) :
    (random2 f1 f2 fb min_val max_val s).val ≠ max_val - 1 ∧
      min_val ≤ (random2 f1 f2 fb min_val max_val s).val ∧
      (random2 f1 f2 fb min_val max_val s).val < max_val - 1 := by
  have hd' : 0 < max_val - min_val - 1 := by omega
  obtain ⟨hlo, hhi', _, _⟩ :=
    random2_master f1 f2 fb min_val max_val s hInv (by omega) (by omega) hd'
  have hhi := hhi' hfb
  obtain ⟨_, _, hDle⟩ := spanClamped_bounds min_val max_val hd'
  exact ⟨by omega, hlo, by omega⟩

theorem C8_witness :
    (random2 0 0 0 0 10 (init 0 0)).val ≠ (10 : Int) - 1 ∧
      (0 : Int) ≤ (random2 0 0 0 0 10 (init 0 0)).val ∧
      (random2 0 0 0 0 10 (init 0 0)).val < (10 : Int) - 1 :=
  C8_never_max_minus_one 0 0 0 0 10 (init 0 0)
    (by decide) (by decide) (by decide) (by decide) (by decide)

/-- C9: degenerate range requests return `0` with no error and before any
buffer state is consumed: `random(max)` with `max ≤ 0` returns `0`, and
`random(min, max)` with `max - min ≤ 1` returns `0`, in both cases leaving
the state untouched and calling the native source zero times. -/
theorem C9_degenerate_zero (f1 f2 fb : Nat) (min_val max_val : Int) (s : RState) :
    (max_val ≤ 0 → random1 f1 f2 fb max_val s = ⟨0, s, 0, true⟩) ∧
    (max_val - min_val ≤ 1 → random2 f1 f2 fb min_val max_val s = ⟨0, s, 0, true⟩) := by
  constructor
  · intro h
    unfold random1
    exact random2_degenerate _ _ _ _ _ _ (by omega)
  · intro h
    exact random2_degenerate _ _ _ _ _ _ (by omega)

theorem C9_witness :
    random1 0 0 0 0 (init 0 0) = ⟨0, init 0 0, 0, true⟩ ∧
      random2 0 0 0 3 4 (init 0 0) = ⟨0, init 0 0, 0, true⟩ :=
  ⟨(C9_degenerate_zero 0 0 0 3 0 (init 0 0)).1 (by decide),
    (C9_degenerate_zero 0 0 0 3 4 (init 0 0)).2 (by decide)⟩

/-- C10: `randomSeed(seed)` leaves every member of the generator unchanged
(`m_bits[0]`, `m_bits[1]`, `m_bitCounts[0]`, `m_bitCounts[1]`,
`m_ctrlIndex`); its only effect is on the native source's state. -/
theorem C10_reseed_frame (seed : Nat) (s : RState) (n : NativeSrc) :
    ((randomSeed seed s n).1.bits0 = s.bits0 ∧ (randomSeed seed s n).1.bits1 = s.bits1 ∧
      (randomSeed seed s n).1.cnt0 = s.cnt0 ∧ (randomSeed seed s n).1.cnt1 = s.cnt1 ∧
      (randomSeed seed s n).1.idx = s.idx) ∧
      (randomSeed seed s n).2 = ⟨seed⟩ :=
  ⟨⟨rfl, rfl, rfl, rfl, rfl⟩, rfl⟩
